import Mathlib

/-!
Shallow embedding of `sync_overlay.py` (telemetry → SRT subtitle generator).

Conventions of the embedding:
* Python `float` values are modelled by `ℚ` (finite values only; `inf`/`nan`
  literals are outside the model, no claim touches them).
* Python strings are modelled by `List Char` (ASCII; `str.strip` removes the
  six ASCII whitespace characters).
* `datetime.datetime` is modelled by `PyDatetime`; `datetime.fromisoformat`
  is modelled after the CPython ≤ 3.10 grammar, which is the grammar the
  source's explicit trailing-`Z` rewrite is written for.
* Fallible Python code (raising `ValueError`/`TypeError`) is modelled with
  `Option`/`Except`.
-/

/-- ASCII whitespace characters removed by Python `str.strip()`. -/
def pyIsSpace (c : Char) : Bool :=
  c = ' ' || c = '\t' || c = '\n' || c = '\x0d' || c = '\x0b' || c = '\x0c'

/-- Model of Python `str.strip()` on a character list. -/
def pyStrip (l : List Char) : List Char :=
  ((l.dropWhile pyIsSpace).reverse.dropWhile pyIsSpace).reverse

/-- Numeric value of an ASCII digit character. -/
def digitVal (c : Char) : ℕ := c.toNat - 48

/-- Continuation of a digit run in a Python numeric literal: further digits,
where a single underscore may stand between two digits (`1_000`).  Returns the
digits collected and the unconsumed remainder. -/
def digitRun : List Char → List Char × List Char
  | '_' :: c :: rest =>
    if c.isDigit then
      let (ds, r) := digitRun rest
      (c :: ds, r)
    else ([], '_' :: c :: rest)
  | c :: rest =>
    if c.isDigit then
      let (ds, r) := digitRun rest
      (c :: ds, r)
    else ([], c :: rest)
  | [] => ([], [])

/-- A digit group of a Python numeric literal: at least one digit, then
`digitRun`.  `none` when the input does not begin with a digit. -/
def digitGroup : List Char → Option (List Char × List Char)
  | c :: rest =>
    if c.isDigit then
      let (ds, r) := digitRun rest
      some (c :: ds, r)
    else none
  | [] => none

/-- Decimal value of a digit-character list. -/
def natOfDigits (ds : List Char) : ℕ :=
  ds.foldl (fun a c => 10 * a + digitVal c) 0

/-- Optional exponent part `eE sign? digits` of a Python float literal;
returns the signed exponent and the remainder (or exponent 0 when absent). -/
def expPart : List Char → Option (ℤ × List Char)
  | 'e' :: rest => expSigned rest
  | 'E' :: rest => expSigned rest
  | l => some (0, l)
where
  expSigned : List Char → Option (ℤ × List Char)
    | '+' :: rest =>
      match digitGroup rest with
      | some (ds, r) => some ((natOfDigits ds : ℤ), r)
      | none => none
    | '-' :: rest =>
      match digitGroup rest with
      | some (ds, r) => some (-(natOfDigits ds : ℤ), r)
      | none => none
    | l =>
      match digitGroup l with
      | some (ds, r) => some ((natOfDigits ds : ℤ), r)
      | none => none

/-- Value of a parsed float literal: sign, integer digits, fractional digits,
decimal exponent. -/
def floatLitVal (sgn : ℚ) (ip fp : List Char) (e : ℤ) : ℚ :=
  sgn * ((natOfDigits ip : ℚ) + (natOfDigits fp : ℚ) / (10 : ℚ) ^ fp.length)
      * (10 : ℚ) ^ e

/-- Grammar of a finite Python float literal (no surrounding whitespace):
`sign? (digits [. digits?] | . digits) (eE sign? digits)?`, with single
underscores permitted inside digit groups.  Full match required. -/
def pyFloatLitCore (l : List Char) : Option ℚ :=
  let (sgn, l1) : ℚ × List Char :=
    match l with
    | '+' :: t => (1, t)
    | '-' :: t => (-1, t)
    | t => (1, t)
  match digitGroup l1 with
  | some (ip, r) =>
    match r with
    | '.' :: r2 =>
      match digitGroup r2 with
      | some (fp, r3) =>
        match expPart r3 with
        | some (e, []) => some (floatLitVal sgn ip fp e)
        | _ => none
      | none =>
        match expPart r2 with
        | some (e, []) => some (floatLitVal sgn ip [] e)
        | _ => none
    | _ =>
      match expPart r with
      | some (e, []) => some (floatLitVal sgn ip [] e)
      | _ => none
  | none =>
    match l1 with
    | '.' :: r2 =>
      match digitGroup r2 with
      | some (fp, r3) =>
        match expPart r3 with
        | some (e, []) => some (floatLitVal sgn [] fp e)
        | _ => none
      | none => none
    | _ => none

/-- Model of Python `float(s)` on a string: strip whitespace, then parse a
finite float literal. -/
def pyFloatOfChars (l : List Char) : Option ℚ :=
  pyFloatLitCore (pyStrip l)

example : pyFloatOfChars " 1700000000 ".data = some 1700000000 := by
  with_unfolding_all rfl
example : pyFloatOfChars "1_0.2_5e1".data = some (205/2) := by
  with_unfolding_all rfl
example : pyFloatOfChars "-.5".data = some (-1/2) := by with_unfolding_all rfl
example : pyFloatOfChars "1.".data = some 1 := by with_unfolding_all rfl
example : pyFloatOfChars "1_".data = none := by with_unfolding_all rfl
example : pyFloatOfChars "00:00:10".data = none := by with_unfolding_all rfl
example : pyFloatOfChars "not-a-time".data = none := by with_unfolding_all rfl

/-! ## Python `datetime` model -/

/-- Model of a Python `datetime.datetime`: calendar fields plus an optional
UTC offset in microseconds (`none` = naive, `some off` = timezone-aware). -/
structure PyDatetime where
  year : ℕ
  month : ℕ
  day : ℕ
  hour : ℕ
  minute : ℕ
  second : ℕ
  microsecond : ℕ
  tzOffset : Option ℤ
deriving DecidableEq

/-- Gregorian leap-year test (as in Python's `calendar`/`datetime`). -/
def isLeapYear (y : ℕ) : Bool :=
  y % 4 = 0 && (y % 100 ≠ 0 || y % 400 = 0)

/-- Days in a month of a given year. -/
def daysInMonth (y m : ℕ) : ℕ :=
  if m = 2 then (if isLeapYear y then 29 else 28)
  else if m = 4 || m = 6 || m = 9 || m = 11 then 30
  else 31

/-- Days in all years before year `y` (proleptic Gregorian, year ≥ 1),
mirroring CPython's `_days_before_year`. -/
def daysBeforeYear (y : ℕ) : ℕ :=
  (y - 1) * 365 + (y - 1) / 4 - (y - 1) / 100 + (y - 1) / 400

/-- Days in the months of year `y` strictly before month `m`. -/
def daysBeforeMonth (y m : ℕ) : ℕ :=
  ((List.range m).filter (fun k => 1 ≤ k)).foldl (fun a k => a + daysInMonth y k) 0

/-- Proleptic-Gregorian ordinal day number of a date (1-1-1 has ordinal 1). -/
def toOrdinal (y m d : ℕ) : ℕ :=
  daysBeforeYear y + daysBeforeMonth y m + d

/-- The wall-clock ("naive") microsecond count of a `PyDatetime`, ignoring
its UTC offset. -/
def naiveMicros (t : PyDatetime) : ℤ :=
  ((toOrdinal t.year t.month t.day) * 86400000000
    + t.hour * 3600000000 + t.minute * 60000000 + t.second * 1000000
    + t.microsecond : ℕ)

/-- Whether a `PyDatetime` is timezone-aware. -/
def PyDatetime.isAware (t : PyDatetime) : Bool := t.tzOffset.isSome

/-- The comparison key Python uses: wall-clock micros for naive values, and
UTC-normalized micros for aware values. -/
def instantMicros (t : PyDatetime) : ℤ :=
  naiveMicros t - t.tzOffset.getD 0

/-- Model of Python's `<` on datetimes: comparing an aware and a naive value
raises `TypeError`, modelled as `Except.error ()`. -/
def dtLt (a b : PyDatetime) : Except Unit Bool :=
  match a.tzOffset, b.tzOffset with
  | none, none => .ok (decide (naiveMicros a < naiveMicros b))
  | some oa, some ob => .ok (decide (naiveMicros a - oa < naiveMicros b - ob))
  | _, _ => .error ()

/-- Model of `min` over a nonempty datetime collection: Python's `min` keeps a
running minimum `cur` and replaces it whenever `x < cur`; the first mixed
aware/naive comparison raises `TypeError`. -/
def minDtFold : PyDatetime → List PyDatetime → Except Unit PyDatetime
  | cur, [] => .ok cur
  | cur, x :: xs =>
    match dtLt x cur with
    | .error e => .error e
    | .ok b => minDtFold (if b then x else cur) xs

/-- Model of `(a - b).total_seconds()`: fractional seconds between two
datetimes; subtracting aware and naive raises `TypeError`. -/
def dtSub (a b : PyDatetime) : Except Unit ℚ :=
  match a.tzOffset, b.tzOffset with
  | none, none => .ok (((naiveMicros a - naiveMicros b : ℤ) : ℚ) / 1000000)
  | some _, some _ => .ok (((instantMicros a - instantMicros b : ℤ) : ℚ) / 1000000)
  | _, _ => .error ()

/-- The value `dtSub` yields when both datetimes have the same awareness
(`tzOffset.getD 0` leaves naive values untouched). -/
def dtSubVal (a b : PyDatetime) : ℚ :=
  ((instantMicros a - instantMicros b : ℤ) : ℚ) / 1000000

/-! ## Decimal rendering helpers -/

/-- Decimal digit characters of `n`; the first argument is structural fuel
(`n + 1` suffices), so the definition reduces in the kernel. -/
def natDigitsAux : ℕ → ℕ → List Char
  | 0, _ => []
  | fuel + 1, n =>
    if n < 10 then [Char.ofNat (48 + n)]
    else natDigitsAux fuel (n / 10) ++ [Char.ofNat (48 + n % 10)]

/-- Decimal string of a natural number. -/
def natToString (n : ℕ) : String := String.mk (natDigitsAux (n + 1) n)

/-- Zero-pad the decimal rendering of `n` to at least `w` characters, as
Python's format spec `0Nd` does. -/
def padNum (w n : ℕ) : String :=
  String.mk (List.replicate (w - (natDigitsAux (n + 1) n).length) '0'
    ++ natDigitsAux (n + 1) n)

example : natToString 1040 = "1040" := by with_unfolding_all rfl
example : padNum 3 7 = "007" := by with_unfolding_all rfl
example : padNum 3 1000 = "1000" := by with_unfolding_all rfl

/-- Rounding to the nearest integer with ties to even, which is the rounding
Python's `round` and `format` perform (on our exact rational model). -/
def pyRoundQ (q : ℚ) : ℤ :=
  let f : ℤ := Int.floor q
  let r : ℚ := q - (f : ℚ)
  if r < 1/2 then f
  else if 1/2 < r then f + 1
  else if f % 2 = 0 then f else f + 1

example : pyRoundQ (2005/10) = 200 := by with_unfolding_all rfl
example : pyRoundQ (2015/10) = 202 := by with_unfolding_all rfl
example : pyRoundQ (9999/10) = 1000 := by with_unfolding_all rfl

/-- Model of Python's fixed-point format `f"{q:.kf}"`: round the magnitude to
`k` decimal places (ties to even) and render with a sign, an integer part and
exactly `k` fractional digits. -/
def formatFixed (k : ℕ) (q : ℚ) : String :=
  let n : ℕ := (pyRoundQ (|q| * (10 : ℚ) ^ k)).toNat
  (if q < 0 then "-" else "") ++ natToString (n / 10 ^ k) ++ "."
    ++ padNum k (n % 10 ^ k)

example : formatFixed 3 (5/2) = "2.500" := by with_unfolding_all rfl
example : formatFixed 3 1700000000 = "1700000000.000" := by
  with_unfolding_all rfl
example : formatFixed 1 (-(1/4)) = "-0.2" := by with_unfolding_all rfl

/-- Model of Python's `str()` on a float whose exact value terminates in at
most 17 decimal digits (every value reachable in this pipeline does; the
shortest-round-trip subtleties of binary floats are outside the model). -/
def floatRepr (q : ℚ) : String :=
  let ip : ℕ := (Int.floor |q|).toNat
  let fr : ℚ := |q| - (ip : ℚ)
  let ds := fracDigits 17 fr
  (if q < 0 then "-" else "") ++ natToString ip ++ "."
    ++ (if ds.isEmpty then "0" else String.mk ds)
where
  /-- Decimal digits of a fraction `0 ≤ fr < 1`, stopping when it
  terminates or after the fuel runs out. -/
  fracDigits : ℕ → ℚ → List Char
    | 0, _ => []
    | fuel + 1, fr =>
      if fr = 0 then []
      else
        Char.ofNat (48 + (Int.floor (fr * 10)).toNat)
          :: fracDigits fuel (fr * 10 - (Int.floor (fr * 10) : ℤ))

example : floatRepr (103/2) = "51.5" := by with_unfolding_all rfl
example : floatRepr 12 = "12.0" := by with_unfolding_all rfl

/-! ## `datetime.isoformat` rendering -/

/-- Rendering of the UTC offset suffix of an aware datetime, as
`datetime.isoformat` produces it: `±HH:MM`, extended with `:SS` and
`.ffffff` only when those parts are nonzero. -/
def tzSuffix (off : ℤ) : String :=
  let a : ℕ := off.natAbs
  let hh := a / 3600000000
  let rem := a % 3600000000
  let mm := rem / 60000000
  let rem2 := rem % 60000000
  let ss := rem2 / 1000000
  let us := rem2 % 1000000
  (if off < 0 then "-" else "+") ++ padNum 2 hh ++ ":" ++ padNum 2 mm
    ++ (if ss = 0 && us = 0 then ""
        else ":" ++ padNum 2 ss ++ (if us = 0 then "" else "." ++ padNum 6 us))

/-- Model of `datetime.isoformat()` (default separator `T`, `timespec` auto:
microseconds shown only when nonzero). -/
def isoformat (t : PyDatetime) : String :=
  padNum 4 t.year ++ "-" ++ padNum 2 t.month ++ "-" ++ padNum 2 t.day
    ++ "T" ++ padNum 2 t.hour ++ ":" ++ padNum 2 t.minute ++ ":"
    ++ padNum 2 t.second
    ++ (if t.microsecond = 0 then "" else "." ++ padNum 6 t.microsecond)
    ++ (match t.tzOffset with
        | none => ""
        | some off => tzSuffix off)

example :
    isoformat ⟨2024, 1, 1, 0, 0, 10, 0, some 0⟩ = "2024-01-01T00:00:10+00:00" := by
  with_unfolding_all rfl

/-! ## `datetime.fromisoformat` model (CPython ≤ 3.10 grammar) -/

/-- Two mandatory decimal digits. -/
def twoDigits : List Char → Option (ℕ × List Char)
  | a :: b :: rest =>
    if a.isDigit && b.isDigit then some (10 * digitVal a + digitVal b, rest)
    else none
  | _ => none

/-- A plain run of decimal digits (no underscores), and the remainder. -/
def takeDigits : List Char → List Char × List Char
  | c :: rest =>
    if c.isDigit then
      let (ds, r) := takeDigits rest
      (c :: ds, r)
    else ([], c :: rest)
  | [] => ([], [])

/-- The `HH[:MM[:SS[.fff[fff]]]]` time part of an ISO string: hours, minutes,
seconds, microseconds and the remainder; the fractional part must have
exactly 3 or 6 digits, as in CPython ≤ 3.10. -/
def isoTimePart (l : List Char) : Option ((ℕ × ℕ × ℕ × ℕ) × List Char) :=
  match twoDigits l with
  | none => none
  | some (hh, r1) =>
    match r1 with
    | ':' :: r2 =>
      match twoDigits r2 with
      | none => none
      | some (mm, r3) =>
        match r3 with
        | ':' :: r4 =>
          match twoDigits r4 with
          | none => none
          | some (ss, r5) =>
            match r5 with
            | '.' :: r6 =>
              let (ds, r7) := takeDigits r6
              if ds.length = 3 then
                some ((hh, mm, ss, natOfDigits ds * 1000), r7)
              else if ds.length = 6 then
                some ((hh, mm, ss, natOfDigits ds), r7)
              else none
            | _ => some ((hh, mm, ss, 0), r5)
        | _ => some ((hh, mm, 0, 0), r3)
    | _ => some ((hh, 0, 0, 0), r1)

/-- The optional `±HH:MM[:SS[.ffffff]]` offset suffix of an ISO string, which
must consume the whole remainder; yields the offset in microseconds. -/
def isoTzPart (l : List Char) : Option (Option ℤ)  :=
  match l with
  | [] => some none
  | s :: rest =>
    if s = '+' || s = '-' then
      match isoTimePart rest with
      | some ((hh, mm, ss, us), []) =>
        -- CPython parses the offset with the same time grammar but only the
        -- lengths of "HH:MM", "HH:MM:SS" and "HH:MM:SS.ffffff" are allowed:
        -- a bare "HH" offset is rejected, as is a 3-digit fraction.
        if rest.length = 5 || rest.length = 8 || rest.length = 15 then
          let mag : ℤ := (hh * 3600000000 + mm * 60000000 + ss * 1000000 + us : ℕ)
          some (some (if s = '-' then -mag else mag))
        else none
      | _ => none
    else none

/-- Model of `datetime.fromisoformat` as implemented in CPython ≤ 3.10 (the
grammar the source's trailing-`Z` rewrite targets): `YYYY-MM-DD`, optionally
followed by one separator character, `HH[:MM[:SS[.fff[fff]]]]` and
`±HH:MM[:SS[.ffffff]]`; field ranges are validated as the `datetime` and
`timezone` constructors do. -/
def fromisoformat (l : List Char) : Option PyDatetime :=
  match l with
  | y1 :: y2 :: y3 :: y4 :: '-' :: m1 :: m2 :: '-' :: d1 :: d2 :: rest =>
    if y1.isDigit && y2.isDigit && y3.isDigit && y4.isDigit && m1.isDigit
        && m2.isDigit && d1.isDigit && d2.isDigit then
      let y := natOfDigits [y1, y2, y3, y4]
      let mo := natOfDigits [m1, m2]
      let d := natOfDigits [d1, d2]
      match rest with
      | [] => mkValid y mo d 0 0 0 0 none
      | _ :: trest =>
        match isoTimePart trest with
        | none => none
        | some ((hh, mi, ss, us), r) =>
          match isoTzPart r with
          | none => none
          | some tz => mkValid y mo d hh mi ss us tz
    else none
  | _ => none
where
  /-- Range validation performed by the `datetime` and `timezone`
  constructors: the overall parse raises `ValueError` when it fails. -/
  mkValid (y mo d hh mi ss us : ℕ) (tz : Option ℤ) : Option PyDatetime :=
    if decide (1 ≤ y) && decide (1 ≤ mo) && decide (mo ≤ 12) && decide (1 ≤ d)
        && decide (d ≤ daysInMonth y mo) && decide (hh ≤ 23) && decide (mi ≤ 59)
        && decide (ss ≤ 59)
        && (match tz with
            | none => true
            | some off => decide (off.natAbs < 86400000000)) then
      some ⟨y, mo, d, hh, mi, ss, us, tz⟩
    else none

example :
    fromisoformat "2024-01-01T00:00:10+00:00".data
      = some ⟨2024, 1, 1, 0, 0, 10, 0, some 0⟩ := by
  with_unfolding_all rfl
example : fromisoformat "2024-01-01T00:00:10Z".data = none := by
  with_unfolding_all rfl
example :
    fromisoformat "2024-02-29 23:59:59.250-05:30".data
      = some ⟨2024, 2, 29, 23, 59, 59, 250000, some (-19800000000)⟩ := by
  with_unfolding_all rfl
example : fromisoformat "2023-02-29".data = none := by with_unfolding_all rfl
example : fromisoformat "1700000000".data = none := by with_unfolding_all rfl
example : fromisoformat "00:00:10".data = none := by with_unfolding_all rfl

/-! ## `datetime.strptime` models for the two fixed patterns -/

/-- A 1- or 2-digit field as matched by the `strptime` regexes for `%H`, `%M`
and `%S`: two digits are taken when they form a value within `maxv`,
otherwise a single digit. -/
def parse2or1 (maxv : ℕ) : List Char → Option (ℕ × List Char)
  | a :: b :: rest =>
    if a.isDigit && b.isDigit && 10 * digitVal a + digitVal b ≤ maxv then
      some (10 * digitVal a + digitVal b, rest)
    else if a.isDigit then some (digitVal a, b :: rest)
    else none
  | [a] => if a.isDigit then some (digitVal a, []) else none
  | [] => none

/-- The `%f` field: one to six digits, right-padded to microseconds. -/
def fracMicrosField (l : List Char) : Option (ℕ × List Char) :=
  match takeDigits l with
  | ([], _) => none
  | (ds, r) =>
    if ds.length ≤ 6 then some (natOfDigits ds * 10 ^ (6 - ds.length), r)
    else some (natOfDigits (ds.take 6), ds.drop 6 ++ r)

/-- Model of `datetime.strptime(s, "%H:%M:%S")`: a full match yields a naive
datetime on the default date 1900-01-01. -/
def strptimeHMS (l : List Char) : Option PyDatetime :=
  match parse2or1 23 l with
  | some (hh, ':' :: r1) =>
    match parse2or1 59 r1 with
    | some (mi, ':' :: r2) =>
      match parse2or1 59 r2 with
      | some (ss, []) => some ⟨1900, 1, 1, hh, mi, ss, 0, none⟩
      | _ => none
    | _ => none
  | _ => none

/-- Model of `datetime.strptime(s, "%H:%M:%S.%f")`. -/
def strptimeHMSf (l : List Char) : Option PyDatetime :=
  match parse2or1 23 l with
  | some (hh, ':' :: r1) =>
    match parse2or1 59 r1 with
    | some (mi, ':' :: r2) =>
      match parse2or1 59 r2 with
      | some (ss, '.' :: r3) =>
        match fracMicrosField r3 with
        | some (us, []) => some ⟨1900, 1, 1, hh, mi, ss, us, none⟩
        | _ => none
      | _ => none
    | _ => none
  | _ => none

example : strptimeHMS "00:00:10".data = some ⟨1900, 1, 1, 0, 0, 10, 0, none⟩ := by
  with_unfolding_all rfl
example : strptimeHMS "7:3:2".data = some ⟨1900, 1, 1, 7, 3, 2, 0, none⟩ := by
  with_unfolding_all rfl
example : strptimeHMS "24:00:00".data = none := by with_unfolding_all rfl
example :
    strptimeHMSf "13:09:01.5".data = some ⟨1900, 1, 1, 13, 9, 1, 500000, none⟩ := by
  with_unfolding_all rfl
example : strptimeHMSf "13:09:01".data = none := by with_unfolding_all rfl

/-! ## `parse_timestamp` -/

/-- A timestamp value as annotated in the source: a native number (`int` or
`float`, both modelled by `ℚ`) or a string. -/
inductive TsInput where
  | num (q : ℚ)
  | str (s : String)
deriving DecidableEq

/-- Result of `parse_timestamp`: a numeric offset or an absolute datetime
(the source returns `Union[dt.datetime, float]`). -/
inductive ParsedTs where
  | numeric (q : ℚ)
  | absolute (d : PyDatetime)
deriving DecidableEq

/-- Whether a parsed timestamp is an absolute datetime (the source's
`isinstance(ts, dt.datetime)` test). -/
def ParsedTs.isAbsolute : ParsedTs → Bool
  | .absolute _ => true
  | .numeric _ => false

/-- The error raised when every parse rule fails; it carries the stripped
string the message interpolates. -/
inductive TsError where
  | unsupportedTimestampFormat (value : String)
deriving DecidableEq

/-- The trailing-`Z` rewrite applied before the ISO parse:
`value[:-1] + "+00:00"` when the string ends with a literal `Z`. -/
def zRewrite (l : List Char) : List Char :=
  if l.getLast? = some 'Z' then l.dropLast ++ "+00:00".data else l

/-- Model of `parse_timestamp`: native numerics pass through; strings are
stripped and tried, in order, as a float literal, an ISO-8601 datetime (after
the trailing-`Z` rewrite), `%H:%M:%S.%f`, and `%H:%M:%S`; otherwise the
function raises `ValueError("Unsupported timestamp format: ...")`. -/
def parse_timestamp : TsInput → Except TsError ParsedTs
  | .num q => .ok (.numeric q)
  | .str s =>
    let value := pyStrip s.data
    match pyFloatOfChars value with
    | some q => .ok (.numeric q)
    | none =>
      match fromisoformat (zRewrite value) with
      | some d => .ok (.absolute d)
      | none =>
        match strptimeHMSf value with
        | some d => .ok (.absolute d)
        | none =>
          match strptimeHMS value with
          | some d => .ok (.absolute d)
          | none => .error (.unsupportedTimestampFormat (String.mk value))

example : parse_timestamp (.str "1700000000") = .ok (.numeric 1700000000) := by
  with_unfolding_all rfl
example :
    parse_timestamp (.str "2024-01-01T00:00:10Z")
      = .ok (.absolute ⟨2024, 1, 1, 0, 0, 10, 0, some 0⟩) := by
  with_unfolding_all rfl
example :
    parse_timestamp (.str "00:00:10")
      = .ok (.absolute ⟨1900, 1, 1, 0, 0, 10, 0, none⟩) := by
  with_unfolding_all rfl
example :
    parse_timestamp (.str "not-a-time")
      = .error (.unsupportedTimestampFormat "not-a-time") := by
  with_unfolding_all rfl

/-! ## Telemetry records and `normalize_entries` -/

/-- A JSON-derived auxiliary field value as `_coerce_optional_float` sees it:
a number, a string, or a value of a type `float()` rejects with `TypeError`
(lists, objects, ...).  A JSON `null` and an absent key both surface as
Python `None`, modelled by `Option.none` at the use site. -/
inductive AuxValue where
  | num (q : ℚ)
  | str (s : String)
  | other
deriving DecidableEq

/-- A raw telemetry record: the `timestamp` key (absent = `none`) and the
three optional auxiliary keys read via `.get`. -/
structure RawRecord where
  timestamp : Option TsInput
  speed : Option AuxValue
  latitude : Option AuxValue
  longitude : Option AuxValue
deriving DecidableEq

/-- The record shape used throughout the tests below: a timestamp and no
auxiliary fields. -/
def tsRec (t : TsInput) : RawRecord := ⟨some t, none, none, none⟩

/-- A normalized telemetry entry, mirroring the source dataclass. -/
structure TelemetryEntry where
  offset_seconds : ℚ
  display_timestamp : String
  speed : Option ℚ
  latitude : Option ℚ
  longitude : Option ℚ
deriving DecidableEq

/-- Model of `_coerce_optional_float`: `None` stays absent, numbers coerce to
themselves, strings parse as float literals, and any `TypeError`/`ValueError`
is swallowed into absence. -/
def _coerce_optional_float : Option AuxValue → Option ℚ
  | none => none
  | some (.num q) => some q
  | some (.str s) => pyFloatOfChars s.data
  | some .other => none

/-- Errors `normalize_entries` can surface.  The first three model the
`ValueError`s the source raises itself; `typeErrorNaiveAware` models the
`TypeError` CPython raises when aware and naive datetimes are compared or
subtracted. -/
inductive NormError where
  | missingTimestampField
  | unsupportedTimestampFormat (value : String)
  | mixedTimestampFormats
  | typeErrorNaiveAware
deriving DecidableEq

/-- The first loop of `normalize_entries`: check each record for the
`timestamp` key and parse it, pairing the parsed value with its record;
the first failing record aborts the whole batch. -/
def parseAll : List RawRecord → Except NormError (List (ParsedTs × RawRecord))
  | [] => .ok []
  | r :: rs =>
    match r.timestamp with
    | none => .error .missingTimestampField
    | some tv =>
      match parse_timestamp tv with
      | .error (.unsupportedTimestampFormat v) =>
        .error (.unsupportedTimestampFormat v)
      | .ok p => (parseAll rs).map (fun t => (p, r) :: t)

/-- The entry construction shared by both branches of `normalize_entries`:
each auxiliary field is coerced independently from its own key. -/
def mkEntry (off : ℚ) (disp : String) (data : RawRecord) : TelemetryEntry :=
  { offset_seconds := off
    display_timestamp := disp
    speed := _coerce_optional_float data.speed
    latitude := _coerce_optional_float data.latitude
    longitude := _coerce_optional_float data.longitude }

/-- The absolute-mode loop body: offset from the batch minimum, ISO display. -/
def absEntry (start : PyDatetime) (p : PyDatetime × RawRecord) : TelemetryEntry :=
  mkEntry (dtSubVal p.1 start) (isoformat p.1) p.2

/-- The numeric-mode loop body: the value itself, displayed as `"<q:.3f>s"`.
`float(ts)` is the identity here since `ts` is already a float. -/
def numEntry (p : ℚ × RawRecord) : TelemetryEntry :=
  mkEntry p.1 (formatFixed 3 p.1 ++ "s") p.2

/-- The datetime payload of a parsed timestamp.  In `normalize_entries` it is
only consulted after the mixed-format check, so the `.numeric` branch is
unreachable there (Python's unchecked narrowing of the `Optional` pair). -/
def ParsedTs.getAbsolute : ParsedTs → PyDatetime
  | .absolute d => d
  | .numeric _ => ⟨1, 1, 1, 0, 0, 0, 0, none⟩

/-- The numeric payload of a parsed timestamp (`float(ts)`).  In the numeric
branch of `normalize_entries` every parsed value is `.numeric`; on a datetime
Python would raise `TypeError`, which is unreachable under the
`has_datetimes` guard. -/
def ParsedTs.getNumeric : ParsedTs → ℚ
  | .numeric q => q
  | .absolute _ => 0

/-- `normalize_entries` before the final sort: parse all records, determine
the batch variant, reject mixed batches, and build the entry list in input
order (absolute mode zero-bases on the minimum instant; numeric mode keeps
values as they are). -/
def buildEntries (entries : List RawRecord) : Except NormError (List TelemetryEntry) :=
  match parseAll entries with
  | .error e => .error e
  | .ok parsed =>
    if parsed.any (fun p => p.1.isAbsolute) then
      if parsed.any (fun p => !p.1.isAbsolute) then .error .mixedTimestampFormats
      else
        let des := parsed.map (fun p => (p.1.getAbsolute, p.2))
        match des with
        | [] => .ok []
        | d0 :: drest =>
          match minDtFold d0.1 (drest.map Prod.fst) with
          | .error _ => .error .typeErrorNaiveAware
          | .ok start =>
            (des.mapM (fun p => (dtSub p.1 start).map
                (fun off => mkEntry off (isoformat p.1) p.2))).mapError
              (fun _ => NormError.typeErrorNaiveAware)
    else
      .ok (parsed.map (fun p => numEntry (p.1.getNumeric, p.2)))

/-- The comparison key of the final `offsets.sort`. -/
def entryLE (a b : TelemetryEntry) : Prop :=
  a.offset_seconds ≤ b.offset_seconds

instance : DecidableRel entryLE := fun a b =>
  inferInstanceAs (Decidable (a.offset_seconds ≤ b.offset_seconds))

instance : IsTotal TelemetryEntry entryLE :=
  ⟨fun a b => le_total a.offset_seconds b.offset_seconds⟩

instance : IsTrans TelemetryEntry entryLE :=
  ⟨fun _ _ _ h1 h2 => le_trans h1 h2⟩

/-- The final `offsets.sort(key=...)`.  Python's `list.sort` is a stable sort
by the key; any two stable sorts with the same key agree on every list, so
insertion sort is an exact model of it. -/
def sortEntries (l : List TelemetryEntry) : List TelemetryEntry :=
  List.insertionSort entryLE l

/-- Model of `normalize_entries`: build the entries, then sort them stably,
ascending by `offset_seconds`. -/
def normalize_entries (entries : List RawRecord) : Except NormError (List TelemetryEntry) :=
  (buildEntries entries).map sortEntries

/-! ## SRT rendering -/

/-- Model of `srt_timestamp`: clamp negatives to zero, split with float
`divmod` (floor semantics), and render `HH:MM:SS,mmm` with the millisecond
count rounded to nearest (ties to even, as Python `round`). -/
def srt_timestamp (seconds : ℚ) : String :=
  let s := max 0 seconds
  let hours : ℕ := (Int.floor (s / 3600)).toNat
  let rem1 : ℚ := s - 3600 * hours
  let minutes : ℕ := (Int.floor (rem1 / 60)).toNat
  let rem2 : ℚ := rem1 - 60 * minutes
  let secs : ℕ := (Int.floor rem2).toNat
  let millis : ℚ := rem2 - secs
  padNum 2 hours ++ ":" ++ padNum 2 minutes ++ ":" ++ padNum 2 secs ++ ","
    ++ padNum 3 (pyRoundQ (millis * 1000)).toNat

example : srt_timestamp 0 = "00:00:00,000" := by with_unfolding_all rfl
example : srt_timestamp (36612005/10000) = "01:01:01,200" := by
  with_unfolding_all rfl
example : srt_timestamp (9999/10000) = "00:00:00,1000" := by
  with_unfolding_all rfl
example : srt_timestamp (-5) = "00:00:00,000" := by with_unfolding_all rfl
example : srt_timestamp 90000 = "25:00:00,000" := by with_unfolding_all rfl

/-- The end time of the caption whose 1-based index is `idx1`: the next
entry's offset when one exists (`entries[idx]` with the source's enumerate
index), else the entry's own offset plus the fixed 1.0-second fallback. -/
def captionEnd (entries : List TelemetryEntry) (idx1 : ℕ) (entry : TelemetryEntry) : ℚ :=
  match entries.get? idx1 with
  | some next => next.offset_seconds
  | none => entry.offset_seconds + 1

/-- The em-dash placeholder used for a missing coordinate. -/
def emDash : String := "—"

/-- The text lines of one caption, in the source's fixed order: `Time:`
always; `Speed:` when present; a combined `Lat/Lon:` line when either
coordinate is present, with the em-dash for a missing one. -/
def captionLines (entry : TelemetryEntry) (speed_unit : String) : List String :=
  ["Time: " ++ entry.display_timestamp]
    ++ (match entry.speed with
        | some v => ["Speed: " ++ formatFixed 1 v ++ " " ++ speed_unit]
        | none => [])
    ++ (if entry.latitude.isSome || entry.longitude.isSome then
          ["Lat/Lon: " ++ (match entry.latitude with
                           | some la => floatRepr la
                           | none => emDash) ++ ", "
            ++ (match entry.longitude with
                | some lo => floatRepr lo
                | none => emDash)]
        else [])

/-- The four lines `lines.extend(...)` appends for one caption: index,
timing line, newline-joined caption text, and the blank separator. -/
def captionBlock (entries : List TelemetryEntry) (idx1 : ℕ) (entry : TelemetryEntry)
    (speed_unit : String) : List String :=
  [natToString idx1,
   srt_timestamp entry.offset_seconds ++ " --> "
     ++ srt_timestamp (captionEnd entries idx1 entry),
   String.intercalate "\n" (captionLines entry speed_unit),
   ""]

/-- The enumerate loop of `build_srt`, starting at index 1. -/
def srtLineList (entries : List TelemetryEntry) (speed_unit : String) :
    ℕ → List TelemetryEntry → List String
  | _, [] => []
  | idx1, e :: es =>
    captionBlock entries idx1 e speed_unit
      ++ srtLineList entries speed_unit (idx1 + 1) es

/-- Model of `build_srt`: join all lines with newlines, strip the result, and
append a single trailing newline. -/
def build_srt (entries : List TelemetryEntry) (speed_unit : String) : String :=
  String.mk (pyStrip (String.intercalate "\n" (srtLineList entries speed_unit 1 entries)).data)
    ++ "\n"

/-! ## Claim C1: disambiguation order of `parse_timestamp` -/

/-- C1: `parse_timestamp` classifies every timestamp input by a fixed
first-match-wins order: a native numeric value is Numeric; a
whitespace-trimmed string that fully parses as a real number is Numeric;
otherwise an ISO-8601 parse (with a trailing literal `Z` first rewritten to
`+00:00`) yields Absolute; otherwise a strict `%H:%M:%S.%f` parse, then a
strict `%H:%M:%S` parse, yield Absolute; if every rule fails it fails with
an `UnsupportedTimestampFormat` error carrying the offending trimmed value.
In particular `"1700000000"` is classified Numeric, never Absolute. -/
theorem claim_C1_parse_timestamp_order :
    (∀ q : ℚ, parse_timestamp (.num q) = .ok (.numeric q))
    ∧ (∀ (s : String) (q : ℚ), pyFloatOfChars (pyStrip s.data) = some q →
        parse_timestamp (.str s) = .ok (.numeric q))
    ∧ (∀ (s : String) (d : PyDatetime),
        pyFloatOfChars (pyStrip s.data) = none →
        fromisoformat (zRewrite (pyStrip s.data)) = some d →
        parse_timestamp (.str s) = .ok (.absolute d))
    ∧ (∀ (s : String) (d : PyDatetime),
        pyFloatOfChars (pyStrip s.data) = none →
        fromisoformat (zRewrite (pyStrip s.data)) = none →
        strptimeHMSf (pyStrip s.data) = some d →
        parse_timestamp (.str s) = .ok (.absolute d))
    ∧ (∀ (s : String) (d : PyDatetime),
        pyFloatOfChars (pyStrip s.data) = none →
        fromisoformat (zRewrite (pyStrip s.data)) = none →
        strptimeHMSf (pyStrip s.data) = none →
        strptimeHMS (pyStrip s.data) = some d →
        parse_timestamp (.str s) = .ok (.absolute d))
    ∧ (∀ s : String,
        pyFloatOfChars (pyStrip s.data) = none →
        fromisoformat (zRewrite (pyStrip s.data)) = none →
        strptimeHMSf (pyStrip s.data) = none →
        strptimeHMS (pyStrip s.data) = none →
        parse_timestamp (.str s)
          = .error (.unsupportedTimestampFormat (String.mk (pyStrip s.data))))
    ∧ parse_timestamp (.str "1700000000") = .ok (.numeric 1700000000)
    ∧ (∀ d : PyDatetime,
        parse_timestamp (.str "1700000000") ≠ .ok (.absolute d)) := by
  refine ⟨fun q => rfl, ?_, ?_, ?_, ?_, ?_, ?_, ?_⟩
  · intro s q h1
    simp only [parse_timestamp, h1]
  · intro s d h1 h2
    simp only [parse_timestamp, h1, h2]
  · intro s d h1 h2 h3
    simp only [parse_timestamp, h1, h2, h3]
  · intro s d h1 h2 h3 h4
    simp only [parse_timestamp, h1, h2, h3, h4]
  · intro s h1 h2 h3 h4
    simp only [parse_timestamp, h1, h2, h3, h4]
  · with_unfolding_all rfl
  · intro d h
    have h7 : parse_timestamp (.str "1700000000") = .ok (.numeric 1700000000) := by
      with_unfolding_all rfl
    rw [h7] at h
    exact ParsedTs.noConfusion (Except.ok.inj h)

/-- Witness for C1: the second rule applied to the concrete string `" 2.5 "`,
whose trimmed form parses fully as a real number. -/
theorem claim_C1_witness :
    parse_timestamp (.str " 2.5 ") = .ok (.numeric (5/2)) :=
  claim_C1_parse_timestamp_order.2.1 " 2.5 " (5/2) (by with_unfolding_all rfl)

/-! ## Claim C2: the output is a stable, sorted permutation -/

/-- Inserting an element whose key differs from `k` does not change the
filter of a list at key `k`. -/
theorem filter_orderedInsert_ne (a : TelemetryEntry) (l : List TelemetryEntry)
    (k : ℚ) (hk : a.offset_seconds ≠ k) :
    (List.orderedInsert entryLE a l).filter (fun e => decide (e.offset_seconds = k))
      = l.filter (fun e => decide (e.offset_seconds = k)) := by
  induction l with
  | nil => simp [List.orderedInsert, hk]
  | cons b t ih =>
    by_cases hab : entryLE a b
    · simp [List.orderedInsert, hab, hk]
    · simp only [List.orderedInsert, if_neg hab, List.filter]
      rw [ih]

/-- Inserting an element with key `k` prepends it to the filter of the list
at key `k`: every element it is inserted after has a strictly smaller key. -/
theorem filter_orderedInsert_eq (a : TelemetryEntry) (l : List TelemetryEntry)
    (k : ℚ) (hk : a.offset_seconds = k) :
    (List.orderedInsert entryLE a l).filter (fun e => decide (e.offset_seconds = k))
      = a :: l.filter (fun e => decide (e.offset_seconds = k)) := by
  induction l with
  | nil => simp [List.orderedInsert, hk]
  | cons b t ih =>
    by_cases hab : entryLE a b
    · simp [List.orderedInsert, hab, hk]
    · have hb : b.offset_seconds ≠ k := by
        intro hbk
        exact hab (by simp [entryLE, hbk, hk])
      simp only [List.orderedInsert, if_neg hab, List.filter, hb, decide_eq_true_eq,
        if_neg, ih]
      simp [hb]

/-- Insertion sort is stable: the sublist of entries holding any fixed key is
unchanged. -/
theorem filter_sortEntries (l : List TelemetryEntry) (k : ℚ) :
    (sortEntries l).filter (fun e => decide (e.offset_seconds = k))
      = l.filter (fun e => decide (e.offset_seconds = k)) := by
  induction l with
  | nil => rfl
  | cons a t ih =>
    show (List.orderedInsert entryLE a (List.insertionSort entryLE t)).filter _ = _
    simp only [sortEntries] at ih
    by_cases ha : a.offset_seconds = k
    · rw [filter_orderedInsert_eq a _ k ha, ih]
      simp [List.filter, ha]
    · rw [filter_orderedInsert_ne a _ k ha, ih]
      simp [List.filter, ha]

/-- C2: whenever `normalize_entries` accepts a batch, the returned list is
sorted non-decreasing by `offset_seconds`, is a permutation of the normalized
entries in input order, and entries with any equal offset `k` keep their
original relative order (stable sort). -/
theorem claim_C2_sorted_stable_permutation (l : List RawRecord)
    (out pre : List TelemetryEntry) (k : ℚ)
    (hpre : buildEntries l = .ok pre)
    (hout : normalize_entries l = .ok out) :
    List.Sorted entryLE out ∧ out.Perm pre
      ∧ out.filter (fun e => decide (e.offset_seconds = k))
          = pre.filter (fun e => decide (e.offset_seconds = k)) := by
  have hso : out = sortEntries pre := by
    rw [normalize_entries, hpre] at hout
    exact (Except.ok.inj hout).symm
  subst hso
  exact ⟨List.sorted_insertionSort entryLE pre,
    List.perm_insertionSort entryLE pre,
    filter_sortEntries pre k⟩

/-- The concrete numeric batch `[3, 1, 3]` used in the C2 witness; the two
tied records are distinguished by their latitude fields. -/
def c2Batch : List RawRecord :=
  [⟨some (.num 3), none, some (.str "1"), none⟩,
   ⟨some (.num 1), none, none, none⟩,
   ⟨some (.num 3), none, some (.str "2"), none⟩]

/-- The entries `buildEntries` produces for `c2Batch`, in input order. -/
def c2Pre : List TelemetryEntry :=
  [⟨3, "3.000s", none, some 1, none⟩,
   ⟨1, "1.000s", none, none, none⟩,
   ⟨3, "3.000s", none, some 2, none⟩]

/-- The sorted entries `normalize_entries` produces for `c2Batch`. -/
def c2Out : List TelemetryEntry :=
  [⟨1, "1.000s", none, none, none⟩,
   ⟨3, "3.000s", none, some 1, none⟩,
   ⟨3, "3.000s", none, some 2, none⟩]

/-- Witness for C2 at the concrete batch `c2Batch`. -/
theorem claim_C2_witness :
    List.Sorted entryLE c2Out ∧ c2Out.Perm c2Pre
      ∧ c2Out.filter (fun e => decide (e.offset_seconds = 3))
          = c2Pre.filter (fun e => decide (e.offset_seconds = 3)) :=
  claim_C2_sorted_stable_permutation c2Batch c2Out c2Pre 3
    (by with_unfolding_all rfl) (by with_unfolding_all rfl)

/-! ## Claim C3: absolute mode zero-bases on the minimum instant -/

/-- A successful datetime comparison implies equal awareness, and its value
is the comparison of UTC-normalized microsecond keys. -/
theorem dtLt_ok {a b : PyDatetime} {v : Bool} (h : dtLt a b = .ok v) :
    a.isAware = b.isAware ∧ v = decide (instantMicros a < instantMicros b) := by
  cases ha : a.tzOffset with
  | none =>
    cases hb : b.tzOffset with
    | none =>
      refine ⟨by simp [PyDatetime.isAware, ha, hb], ?_⟩
      rw [dtLt, ha, hb] at h
      simp only [instantMicros, ha, hb, Option.getD]
      simpa using (Except.ok.inj h).symm
    | some ob => rw [dtLt, ha, hb] at h; exact absurd h (by simp)
  | some oa =>
    cases hb : b.tzOffset with
    | none => rw [dtLt, ha, hb] at h; exact absurd h (by simp)
    | some ob =>
      refine ⟨by simp [PyDatetime.isAware, ha, hb], ?_⟩
      rw [dtLt, ha, hb] at h
      simp only [instantMicros, ha, hb, Option.getD]
      simpa using (Except.ok.inj h).symm

/-- A successful running minimum has the awareness of its seed, and its
UTC-normalized key is a lower bound for the seed and every element. -/
theorem minDtFold_ok (xs : List PyDatetime) :
    ∀ cur m : PyDatetime, minDtFold cur xs = .ok m →
      (m.isAware = cur.isAware ∧ instantMicros m ≤ instantMicros cur)
        ∧ ∀ x ∈ xs, x.isAware = cur.isAware ∧ instantMicros m ≤ instantMicros x := by
  induction xs with
  | nil =>
    intro cur m h
    rw [minDtFold] at h
    cases Except.ok.inj h
    exact ⟨⟨rfl, le_refl _⟩, by simp⟩
  | cons x xs ih =>
    intro cur m h
    cases hlt : dtLt x cur with
    | error e => simp [minDtFold, hlt] at h
    | ok b =>
      simp only [minDtFold, hlt] at h
      obtain ⟨haw, hb⟩ := dtLt_ok hlt
      obtain ⟨⟨hmaw, hmle⟩, hall⟩ := ih _ m h
      cases b with
      | true =>
        have hxlt : instantMicros x < instantMicros cur := by
          have hd := hb.symm
          simpa using hd
        rw [if_pos rfl] at hmaw hmle hall
        refine ⟨⟨hmaw.trans haw, le_trans hmle (le_of_lt hxlt)⟩, ?_⟩
        intro y hy
        rcases List.mem_cons.mp hy with rfl | hy
        · exact ⟨haw, hmle⟩
        · obtain ⟨h1, h2⟩ := hall y hy
          exact ⟨h1.trans haw, h2⟩
      | false =>
        have hxge : instantMicros cur ≤ instantMicros x := by
          have hd := hb.symm
          simp only [decide_eq_false_iff_not, not_lt] at hd
          exact hd
        rw [if_neg (by simp)] at hmaw hmle hall
        refine ⟨⟨hmaw, hmle⟩, ?_⟩
        intro y hy
        rcases List.mem_cons.mp hy with rfl | hy
        · exact ⟨haw, le_trans hmle hxge⟩
        · exact hall y hy

/-- Subtracting datetimes of equal awareness succeeds with the value
`dtSubVal` (the difference of UTC-normalized keys, in seconds). -/
theorem dtSub_same {a b : PyDatetime} (h : a.isAware = b.isAware) :
    dtSub a b = .ok (dtSubVal a b) := by
  cases ha : a.tzOffset with
  | none =>
    cases hb : b.tzOffset with
    | none =>
      rw [dtSub, ha, hb]
      simp [dtSubVal, instantMicros, ha, hb]
    | some ob => simp [PyDatetime.isAware, ha, hb] at h
  | some oa =>
    cases hb : b.tzOffset with
    | none => simp [PyDatetime.isAware, ha, hb] at h
    | some ob => rw [dtSub, ha, hb]; rfl

/-- The absolute-mode loop succeeds elementwise once every instant shares the
minimum's awareness. -/
theorem mapM_absEntries (start : PyDatetime) :
    ∀ des : List (PyDatetime × RawRecord),
      (∀ p ∈ des, p.1.isAware = start.isAware) →
      (des.mapM (fun p => (dtSub p.1 start).map
          (fun off => mkEntry off (isoformat p.1) p.2)))
        = .ok (des.map (absEntry start)) := by
  intro des
  induction des with
  | nil => intro _; rfl
  | cons p ps ih =>
    intro hall
    rw [List.mapM_cons, dtSub_same (hall p (by simp))]
    rw [ih (fun q hq => hall q (by simp [hq]))]
    rfl

/-- The concrete absolute-mode batch from the claim:
`["2024-01-01T00:00:10Z", "2024-01-01T00:00:00Z"]`. -/
def c3Batch : List RawRecord :=
  [tsRec (.str "2024-01-01T00:00:10Z"), tsRec (.str "2024-01-01T00:00:00Z")]

/-- The entries built for `c3Batch` in input order: offsets `[10, 0]`. -/
def c3Pre : List TelemetryEntry :=
  [⟨10, "2024-01-01T00:00:10+00:00", none, none, none⟩,
   ⟨0, "2024-01-01T00:00:00+00:00", none, none, none⟩]

/-- The sorted output for `c3Batch`: offsets `[0, 10]`, so the second input
record becomes caption #1. -/
def c3Out : List TelemetryEntry :=
  [⟨0, "2024-01-01T00:00:00+00:00", none, none, none⟩,
   ⟨10, "2024-01-01T00:00:10+00:00", none, none, none⟩]

/-- C3: when every parsed timestamp is an absolute instant (and the batch
minimum is computed without a mixed aware/naive comparison), each record's
offset is `(instant - start)` in fractional seconds with `start` the minimum
instant, and the display is the ISO-8601 rendering; in particular the batch
`["2024-01-01T00:00:10Z", "2024-01-01T00:00:00Z"]` yields offsets `[10, 0]`
before sorting and `[0, 10]` after, the second record becoming caption #1. -/
theorem claim_C3_absolute_mode (l : List RawRecord) (d0 : PyDatetime × RawRecord)
    (drest : List (PyDatetime × RawRecord)) (start : PyDatetime)
    (hps : parseAll l = .ok ((d0 :: drest).map fun x => (ParsedTs.absolute x.1, x.2)))
    (hmin : minDtFold d0.1 (drest.map Prod.fst) = .ok start) :
    buildEntries l = .ok ((d0 :: drest).map (absEntry start))
      ∧ (∀ x ∈ d0 :: drest, instantMicros start ≤ instantMicros x.1)
      ∧ buildEntries c3Batch = .ok c3Pre
      ∧ normalize_entries c3Batch = .ok c3Out := by
  obtain ⟨⟨hsaw, hsle⟩, hrest⟩ := minDtFold_ok (drest.map Prod.fst) d0.1 start hmin
  have haware : ∀ p ∈ d0 :: drest, p.1.isAware = start.isAware := by
    intro p hp
    rcases List.mem_cons.mp hp with rfl | hp
    · exact hsaw.symm
    · exact ((hrest p.1 (List.mem_map_of_mem Prod.fst hp)).1).trans hsaw.symm
  have hmain : buildEntries l = .ok ((d0 :: drest).map (absEntry start)) := by
    have h1 : ((d0 :: drest).map fun x => (ParsedTs.absolute x.1, x.2)).any
        (fun p => p.1.isAbsolute) = true := by
      simp only [List.map_cons, List.any_cons, ParsedTs.isAbsolute, Bool.true_or]
    have h2 : ((d0 :: drest).map fun x => (ParsedTs.absolute x.1, x.2)).any
        (fun p => !p.1.isAbsolute) = false := by
      simp [List.any_map, Function.comp, ParsedTs.isAbsolute]
      intro a b x x1 hmem ha hb
      subst ha
      rfl
    have hdes : (((d0 :: drest).map fun x => (ParsedTs.absolute x.1, x.2)).map
        (fun p => (p.1.getAbsolute, p.2))) = d0 :: drest := by
      have hcomp : ((fun p : ParsedTs × RawRecord => (p.1.getAbsolute, p.2))
          ∘ fun x : PyDatetime × RawRecord => (ParsedTs.absolute x.1, x.2)) = id := by
        funext x
        simp [ParsedTs.getAbsolute]
      rw [List.map_map, hcomp, List.map_id]
    rw [buildEntries, hps]
    simp only [h1, h2, Bool.false_eq_true, eq_self_iff_true, if_true, if_false,
      hdes, hmin]
    change Except.mapError (fun _ => NormError.typeErrorNaiveAware)
      (List.mapM (fun p => (dtSub p.1 start).map
        (fun off => mkEntry off (isoformat p.1) p.2)) (d0 :: drest)) = _
    rw [mapM_absEntries start (d0 :: drest) haware]
    rfl
  refine ⟨hmain, ?_, by with_unfolding_all rfl, by with_unfolding_all rfl⟩
  intro x hx
  rcases List.mem_cons.mp hx with rfl | hx
  · exact hsle
  · exact (hrest x.1 (List.mem_map_of_mem Prod.fst hx)).2

/-- The aware instant 2024-01-01T00:00:10+00:00. -/
def c3D10 : PyDatetime := ⟨2024, 1, 1, 0, 0, 10, 0, some 0⟩

/-- The aware instant 2024-01-01T00:00:00+00:00. -/
def c3D0 : PyDatetime := ⟨2024, 1, 1, 0, 0, 0, 0, some 0⟩

/-- Witness for C3: the general absolute-mode theorem instantiated at the
concrete two-record batch, with all hypotheses discharged by evaluation. -/
theorem claim_C3_witness : normalize_entries c3Batch = .ok c3Out :=
  (claim_C3_absolute_mode c3Batch
      (c3D10, tsRec (.str "2024-01-01T00:00:10Z"))
      [(c3D0, tsRec (.str "2024-01-01T00:00:00Z"))] c3D0
      (by with_unfolding_all rfl) (by with_unfolding_all rfl)).2.2.2

/-! ## Claim C4: numeric mode applies no zero-basing -/

/-- C4: when every parsed timestamp is Numeric (no absolute value present at
all), each entry's `offset_seconds` is the parsed numeric value unmodified —
no zero-basing from the batch minimum — and its `display_timestamp` is the
value formatted to 3 decimal places followed by `s`. -/
theorem claim_C4_numeric_mode (l : List RawRecord) (qs : List (ℚ × RawRecord))
    (hps : parseAll l = .ok (qs.map fun x => (ParsedTs.numeric x.1, x.2))) :
    buildEntries l = .ok (qs.map numEntry)
      ∧ ∀ p ∈ qs, (numEntry p).offset_seconds = p.1
          ∧ (numEntry p).display_timestamp = formatFixed 3 p.1 ++ "s" := by
  have h1 : ((qs.map fun x => (ParsedTs.numeric x.1, x.2)).any
      (fun p => p.1.isAbsolute)) = false := by
    simp [List.any_map, Function.comp, ParsedTs.isAbsolute]
    intro a b x x1 hmem ha hb
    subst ha
    rfl
  refine ⟨?_, fun p _ => ⟨rfl, rfl⟩⟩
  rw [buildEntries, hps]
  simp only [h1, Bool.false_eq_true, if_false]
  rw [List.map_map]
  have hcomp : ((fun p : ParsedTs × RawRecord => numEntry (p.1.getNumeric, p.2))
      ∘ fun x : ℚ × RawRecord => (ParsedTs.numeric x.1, x.2)) = numEntry := by
    funext x
    simp [ParsedTs.getNumeric]
  rw [hcomp]

/-- The concrete numeric batch used in the C4 witness. -/
def c4Batch : List RawRecord :=
  [tsRec (.num 1700000000), tsRec (.str "12.5")]

/-- Witness for C4: a batch of one native number and one numeric string keeps
both values unmodified (no zero-basing to the minimum). -/
theorem claim_C4_witness :
    buildEntries c4Batch
      = .ok (List.map numEntry
          [(1700000000, tsRec (.num 1700000000)), (25/2, tsRec (.str "12.5"))]) :=
  (claim_C4_numeric_mode c4Batch
      [(1700000000, tsRec (.num 1700000000)), (25/2, tsRec (.str "12.5"))]
      (by with_unfolding_all rfl)).1

/-! ## Claim C5: mixed batches are rejected -/

/-- C5: a batch whose parsed timestamps contain at least one Absolute and at
least one Numeric value fails with `MixedTimestampFormats` and yields no
entries; in particular one ISO-8601 entry plus one bare numeric entry fails
this way. -/
theorem claim_C5_mixed_rejected (l : List RawRecord)
    (ps : List (ParsedTs × RawRecord))
    (hps : parseAll l = .ok ps)
    (habs : ps.any (fun p => p.1.isAbsolute) = true)
    (hnum : ps.any (fun p => !p.1.isAbsolute) = true) :
    normalize_entries l = .error .mixedTimestampFormats
      ∧ buildEntries l = .error .mixedTimestampFormats
      ∧ normalize_entries [tsRec (.str "2024-01-01T00:00:10Z"), tsRec (.num 5)]
          = .error .mixedTimestampFormats := by
  have hb : buildEntries l = .error .mixedTimestampFormats := by
    rw [buildEntries, hps]
    simp only [habs, hnum, eq_self_iff_true, if_true]
  refine ⟨?_, hb, by with_unfolding_all rfl⟩
  rw [normalize_entries, hb]
  rfl

/-- Witness for C5: one ISO-8601 record and one bare numeric record. -/
theorem claim_C5_witness :
    normalize_entries [tsRec (.str "2024-01-01T00:00:10Z"), tsRec (.num 5)]
      = .error .mixedTimestampFormats :=
  (claim_C5_mixed_rejected [tsRec (.str "2024-01-01T00:00:10Z"), tsRec (.num 5)]
      [(.absolute c3D10, tsRec (.str "2024-01-01T00:00:10Z")),
       (.numeric 5, tsRec (.num 5))]
      (by with_unfolding_all rfl) (by with_unfolding_all rfl)
      (by with_unfolding_all rfl)).1

/-! ## Claim C6: missing `timestamp` aborts the whole batch -/

/-- A parse failure in `parseAll` propagates through `buildEntries` and
`normalize_entries` unchanged. -/
theorem normalize_of_parseAll_error (l : List RawRecord) (e : NormError)
    (h : parseAll l = .error e) :
    buildEntries l = .error e ∧ normalize_entries l = .error e := by
  have hb : buildEntries l = .error e := by
    rw [buildEntries, h]
  exact ⟨hb, by rw [normalize_entries, hb]; rfl⟩

/-- Counterexample to C6 as stated: a batch whose first record has an
unparseable timestamp and whose second record lacks the `timestamp` key fails
with `UnsupportedTimestampFormat`, not `MissingTimestampField`: the loop is
positional and the earlier record fails first. -/
theorem claim_C6_counterexample :
    normalize_entries [tsRec (.str "not-a-time"), ⟨none, none, none, none⟩]
      = .error (.unsupportedTimestampFormat "not-a-time")
      ∧ (RawRecord.timestamp ⟨none, none, none, none⟩) = none
      ∧ NormError.unsupportedTimestampFormat "not-a-time"
          ≠ NormError.missingTimestampField := by
  refine ⟨by with_unfolding_all rfl, rfl, by simp⟩

/-- C6 (amended): a batch containing a record that lacks the `timestamp` key
fails whole-batch with `MissingTimestampField` — with no partial result —
provided every record before the first such record has a timestamp that
parses; an earlier unparseable timestamp instead reports its own
`UnsupportedTimestampFormat` (positional fail-fast). -/
theorem claim_C6_missing_timestamp (l1 l2 : List RawRecord) (r : RawRecord)
    (hr : r.timestamp = none)
    (h1 : ∀ x ∈ l1, ∃ tv p, x.timestamp = some tv ∧ parse_timestamp tv = .ok p) :
    normalize_entries (l1 ++ r :: l2) = .error .missingTimestampField := by
  have hp : parseAll (l1 ++ r :: l2) = .error .missingTimestampField := by
    induction l1 with
    | nil =>
      rw [List.nil_append, parseAll, hr]
    | cons x t ih =>
      obtain ⟨tv, p, htv, hpt⟩ := h1 x (by simp)
      have ht := ih (fun y hy => h1 y (by simp [hy]))
      rw [List.cons_append, parseAll, htv]
      simp only [hpt, ht]
      rfl
  exact (normalize_of_parseAll_error _ _ hp).2

/-- Witness for the amended C6: a valid record followed by a record lacking
`timestamp`. -/
theorem claim_C6_witness :
    normalize_entries [tsRec (.num 1), ⟨none, none, none, none⟩]
      = .error .missingTimestampField :=
  claim_C6_missing_timestamp [tsRec (.num 1)] [] ⟨none, none, none, none⟩ rfl
    (by
      intro x hx
      rw [List.mem_singleton] at hx
      subst hx
      exact ⟨.num 1, .numeric 1, rfl, rfl⟩)

/-! ## Claim C7: `srt_timestamp` rendering -/

/-- C7 evaluation: the claimed clamp and the two claimed examples hold, hours
are unbounded, but at the failing input `0.9999` the millisecond field
overflows to the four digits `1000` instead of the claimed exactly-three-digit
field (the nearest-millisecond carry is never propagated into seconds), so
the rendered string has 13 characters rather than the 12 of
`HH:MM:SS,mmm`. -/
theorem claim_C7_srt_behavior :
    srt_timestamp (9999/10000) = "00:00:00,1000"
      ∧ (srt_timestamp (9999/10000)).length = 13
      ∧ srt_timestamp 0 = "00:00:00,000"
      ∧ srt_timestamp (36612005/10000) = "01:01:01,200"
      ∧ srt_timestamp (-5) = "00:00:00,000"
      ∧ srt_timestamp 90000 = "25:00:00,000" := by
  refine ⟨?_, ?_, ?_, ?_, ?_, ?_⟩ <;> with_unfolding_all rfl

/-! ## Claim C10: mixed aware/naive absolute batches raise `TypeError` -/

/-- C10: a batch mixing an aware ISO instant with a naive bare-clock instant
passes the Absolute/Numeric consistency guard but then raises an unhandled
`TypeError` while computing the minimum — an error outside the
`MissingTimestampField` / `UnsupportedTimestampFormat` /
`MixedTimestampFormats` taxonomy — instead of producing offsets. -/
theorem claim_C10_naive_aware_type_error :
    normalize_entries [tsRec (.str "2024-01-01T00:00:00Z"), tsRec (.str "00:00:10")]
      = .error .typeErrorNaiveAware
      ∧ NormError.typeErrorNaiveAware ≠ NormError.missingTimestampField
      ∧ (∀ v, NormError.typeErrorNaiveAware ≠ NormError.unsupportedTimestampFormat v)
      ∧ NormError.typeErrorNaiveAware ≠ NormError.mixedTimestampFormats := by
  refine ⟨by with_unfolding_all rfl, by simp, fun v => by simp, by simp⟩

/-! ## Claim C8: caption windows -/

/-- The entry with offset 0 in the concrete C8 example. -/
def c8E0 : TelemetryEntry := ⟨0, "0.000s", none, none, none⟩

/-- The entry with offset 5 in the concrete C8 example. -/
def c8E1 : TelemetryEntry := ⟨5, "5.000s", none, none, none⟩

/-- The entry with offset 12 in the concrete C8 example. -/
def c8E2 : TelemetryEntry := ⟨12, "12.000s", none, none, none⟩

/-- The ordered entry sequence with offsets `[0, 5, 12]`. -/
def c8List : List TelemetryEntry := [c8E0, c8E1, c8E2]

/-- C8: caption `i` (1-based) starts at entry `i`'s offset and ends at the
next entry's offset when one exists, else at its own offset plus the fixed
1.0-second fallback; for offsets `[0, 5, 12]` caption #2 ends at 12.0, the
last caption ends at 13.0, and the full SRT text renders accordingly. -/
theorem claim_C8_caption_windows :
    (∀ (es : List TelemetryEntry) (i : ℕ) (e : TelemetryEntry) (h : i < es.length),
        captionEnd es i e = (es.get ⟨i, h⟩).offset_seconds)
      ∧ (∀ (es : List TelemetryEntry) (i : ℕ) (e : TelemetryEntry),
          es.length ≤ i → captionEnd es i e = e.offset_seconds + 1)
      ∧ captionEnd c8List 1 c8E0 = 5
      ∧ captionEnd c8List 2 c8E1 = 12
      ∧ captionEnd c8List 3 c8E2 = 13
      ∧ build_srt c8List "mph"
          = "1\n00:00:00,000 --> 00:00:05,000\nTime: 0.000s\n\n2\n00:00:05,000 --> 00:00:12,000\nTime: 5.000s\n\n3\n00:00:12,000 --> 00:00:13,000\nTime: 12.000s\n" := by
  refine ⟨?_, ?_, ?_, ?_, ?_, ?_⟩
  · intro es i e h
    rw [captionEnd, List.get?_eq_get h]
  · intro es i e h
    rw [captionEnd, List.get?_eq_none.mpr h]
  · with_unfolding_all rfl
  · with_unfolding_all rfl
  · with_unfolding_all rfl
  · with_unfolding_all rfl

/-- Witness for C8: the fallback rule applied to the last caption of the
`[0, 5, 12]` sequence gives end time `12 + 1.0`. -/
theorem claim_C8_witness : captionEnd c8List 3 c8E2 = c8E2.offset_seconds + 1 :=
  claim_C8_caption_windows.2.1 c8List 3 c8E2 (by decide)

/-! ## Claim C9: auxiliary-field coercion never fails the batch -/

/-- A successful `mapM` over `Except` acts pointwise: every output element is
the successful image of the input element at the same position. -/
theorem mapM_ok_pointwise {ε α β : Type} (f : α → Except ε β) :
    ∀ (xs : List α) (ys : List β), xs.mapM f = .ok ys →
      ys.length = xs.length ∧ ∀ (i : ℕ) (hy : i < ys.length) (hx : i < xs.length),
        f (xs.get ⟨i, hx⟩) = .ok (ys.get ⟨i, hy⟩) := by
  intro xs
  induction xs with
  | nil =>
    intro ys h
    have hys : ([] : List β) = ys := by
      have h2 : (Except.ok ([] : List β) : Except ε (List β)) = .ok ys := h
      exact Except.ok.inj h2
    subst hys
    exact ⟨rfl, fun i hy _ => absurd hy (by simp)⟩
  | cons a t ih =>
    intro ys h
    rw [List.mapM_cons] at h
    cases hfa : f a with
    | error e =>
      rw [hfa] at h
      have h2 : (Except.error e : Except ε (List β)) = .ok ys := h
      exact absurd h2 (by simp)
    | ok b =>
      rw [hfa] at h
      have h3 : (t.mapM f).bind (fun bs => pure (b :: bs)) = .ok ys := h
      cases hmt : t.mapM f with
      | error e =>
        rw [hmt] at h3
        exact absurd h3 (by simp [Except.bind])
      | ok bs =>
        rw [hmt] at h3
        have h4 : (Except.ok (b :: bs) : Except ε (List β)) = .ok ys := h3
        cases Except.ok.inj h4
        obtain ⟨hlen, hpt⟩ := ih bs hmt
        refine ⟨by simp [hlen], ?_⟩
        intro i hy hx
        cases i with
        | zero => simpa using hfa
        | succ n =>
          exact hpt n (by simpa using hy) (by simpa using hx)

/-- A successful `parseAll` pairs each record with its parsed timestamp, in
input order: the second component at each position is the record itself. -/
theorem parseAll_ok_snd :
    ∀ (l : List RawRecord) (ps : List (ParsedTs × RawRecord)),
      parseAll l = .ok ps →
      ps.length = l.length ∧ ∀ (i : ℕ) (hp : i < ps.length) (hl : i < l.length),
        (ps.get ⟨i, hp⟩).2 = l.get ⟨i, hl⟩ := by
  intro l
  induction l with
  | nil =>
    intro ps h
    have h2 : (Except.ok ([] : List (ParsedTs × RawRecord))
        : Except NormError (List (ParsedTs × RawRecord))) = .ok ps := h
    cases Except.ok.inj h2
    exact ⟨rfl, fun i hp _ => absurd hp (by simp)⟩
  | cons r rs ih =>
    intro ps h
    rw [parseAll] at h
    cases htv : r.timestamp with
    | none =>
      rw [htv] at h
      exact absurd h (by simp)
    | some tv =>
      rw [htv] at h
      cases hpt : parse_timestamp tv with
      | error e =>
        cases e with
        | unsupportedTimestampFormat v =>
          simp only [hpt] at h
          exact absurd h (by simp)
      | ok p =>
        simp only [hpt] at h
        have h3 : (parseAll rs).map (fun t => (p, r) :: t) = .ok ps := h
        cases hrec : parseAll rs with
        | error e =>
          rw [hrec] at h3
          exact absurd h3 (by simp [Except.map])
        | ok t =>
          rw [hrec] at h3
          have h4 : (Except.ok ((p, r) :: t)
              : Except NormError (List (ParsedTs × RawRecord))) = .ok ps := h3
          cases Except.ok.inj h4
          obtain ⟨hlen, hpt2⟩ := ih t hrec
          refine ⟨by simp [hlen], ?_⟩
          intro i hp hl
          cases i with
          | zero => rfl
          | succ n => exact hpt2 n (by simpa using hp) (by simpa using hl)

/-- Whenever `buildEntries` accepts a batch, it produces exactly one entry
per record in input order, and each entry's auxiliary fields are the
independent coercions of that record's own `speed`, `latitude` and
`longitude` keys — coercion failures never abort the batch. -/
theorem buildEntries_fields :
    ∀ (l : List RawRecord) (pre : List TelemetryEntry),
      buildEntries l = .ok pre →
      pre.length = l.length ∧ ∀ (i : ℕ) (hp : i < pre.length) (hl : i < l.length),
        (pre.get ⟨i, hp⟩).speed = _coerce_optional_float ((l.get ⟨i, hl⟩).speed)
        ∧ (pre.get ⟨i, hp⟩).latitude = _coerce_optional_float ((l.get ⟨i, hl⟩).latitude)
        ∧ (pre.get ⟨i, hp⟩).longitude
            = _coerce_optional_float ((l.get ⟨i, hl⟩).longitude) := by
  intro l pre h
  rw [buildEntries] at h
  cases hps : parseAll l with
  | error e =>
    simp only [hps] at h
    exact absurd h (by simp)
  | ok parsed =>
    simp only [hps] at h
    obtain ⟨hplen, hpsnd⟩ := parseAll_ok_snd l parsed hps
    by_cases habs : parsed.any (fun p => p.1.isAbsolute) = true
    · rw [if_pos habs] at h
      by_cases hnum : parsed.any (fun p => !p.1.isAbsolute) = true
      · rw [if_pos hnum] at h
        exact absurd h (by simp)
      · rw [if_neg hnum] at h
        cases hdes : parsed.map (fun p => (p.1.getAbsolute, p.2)) with
        | nil =>
          simp only [hdes] at h
          have h4 : (Except.ok ([] : List TelemetryEntry)
              : Except NormError (List TelemetryEntry)) = .ok pre := h
          cases Except.ok.inj h4
          have hpe : parsed = [] := List.map_eq_nil_iff.mp hdes
          subst hpe
          refine ⟨by simpa using hplen, ?_⟩
          intro i hp _
          exact absurd hp (by simp)
        | cons d0 drest =>
          simp only [hdes] at h
          cases hmin : minDtFold d0.1 (drest.map Prod.fst) with
          | error e =>
            simp only [hmin] at h
            exact absurd h (by simp)
          | ok start =>
            simp only [hmin] at h
            cases hmp : (d0 :: drest).mapM (fun p => (dtSub p.1 start).map
                (fun off => mkEntry off (isoformat p.1) p.2)) with
            | error e =>
              rw [hmp] at h
              exact absurd h (by simp [Except.mapError])
            | ok ys =>
              rw [hmp] at h
              have h4 : (Except.ok ys : Except NormError (List TelemetryEntry))
                  = .ok pre := by
                simpa [Except.mapError] using h
              cases Except.ok.inj h4
              obtain ⟨hylen, hypt⟩ := mapM_ok_pointwise _ (d0 :: drest) pre hmp
              have hdlen : (d0 :: drest).length = parsed.length := by
                rw [← hdes, List.length_map]
              refine ⟨by rw [hylen, hdlen, hplen], ?_⟩
              intro i hp hl
              have hid : i < (d0 :: drest).length := by rw [← hylen]; exact hp
              have hg := hypt i hp hid
              cases hsub : dtSub ((d0 :: drest).get ⟨i, hid⟩).1 start with
              | error e =>
                rw [hsub] at hg
                exact absurd hg (by simp [Except.map])
              | ok off =>
                rw [hsub] at hg
                have hy : mkEntry off (isoformat ((d0 :: drest).get ⟨i, hid⟩).1)
                    ((d0 :: drest).get ⟨i, hid⟩).2 = pre.get ⟨i, hp⟩ := by
                  simpa [Except.map] using hg
                have hip : i < parsed.length := by rw [← hdlen]; exact hid
                have hsnd : ((d0 :: drest).get ⟨i, hid⟩).2
                    = (parsed.get ⟨i, hip⟩).2 := by
                  rw [List.get_of_eq hdes.symm ⟨i, hid⟩]
                  simp [List.get_eq_getElem, List.getElem_map]
                rw [← hy, hsnd]
                have hrec := hpsnd i hip hl
                rw [hrec]
                exact ⟨rfl, rfl, rfl⟩
    · rw [if_neg habs] at h
      have h4 : (Except.ok (parsed.map (fun p => numEntry (p.1.getNumeric, p.2)))
          : Except NormError (List TelemetryEntry)) = .ok pre := h
      cases Except.ok.inj h4
      refine ⟨by rw [List.length_map, hplen], ?_⟩
      intro i hp hl
      have hip : i < parsed.length := by
        simpa using hp
      have hmap : (parsed.map (fun p => numEntry (p.1.getNumeric, p.2))).get ⟨i, hp⟩
          = numEntry ((parsed.get ⟨i, hip⟩).1.getNumeric, (parsed.get ⟨i, hip⟩).2) := by
        simp [List.get_eq_getElem, List.getElem_map]
      rw [hmap, hpsnd i hip hl]
      exact ⟨rfl, rfl, rfl⟩

/-- C9: `_coerce_optional_float` never raises: an absent (`None`) value, an
unparseable string, or a value of a non-coercible type is treated as absent,
a convertible value yields the corresponding float, and within
`normalize_entries` each entry's `speed`/`latitude`/`longitude` is the
independent coercion of that record's own key — coercion never aborts the
batch. -/
theorem claim_C9_optional_coercion :
    _coerce_optional_float none = none
      ∧ (∀ q : ℚ, _coerce_optional_float (some (.num q)) = some q)
      ∧ (∀ s : String, _coerce_optional_float (some (.str s)) = pyFloatOfChars s.data)
      ∧ _coerce_optional_float (some (.str "garbage")) = none
      ∧ _coerce_optional_float (some .other) = none
      ∧ (∀ (l : List RawRecord) (pre : List TelemetryEntry),
          buildEntries l = .ok pre →
          pre.length = l.length
            ∧ ∀ (i : ℕ) (hp : i < pre.length) (hl : i < l.length),
              (pre.get ⟨i, hp⟩).speed
                  = _coerce_optional_float ((l.get ⟨i, hl⟩).speed)
                ∧ (pre.get ⟨i, hp⟩).latitude
                    = _coerce_optional_float ((l.get ⟨i, hl⟩).latitude)
                ∧ (pre.get ⟨i, hp⟩).longitude
                    = _coerce_optional_float ((l.get ⟨i, hl⟩).longitude)) :=
  ⟨rfl, fun _ => rfl, fun _ => rfl, by with_unfolding_all rfl, rfl,
    buildEntries_fields⟩

/-- The single-record batch of the C9 witness: an unparseable `speed` string,
a numeric `latitude`, and a `longitude` of non-coercible type. -/
def c9Batch : List RawRecord :=
  [⟨some (.num 1), some (.str "abc"), some (.num 7), some .other⟩]

/-- Witness for C9: on `c9Batch` the batch succeeds, the malformed `speed`
and non-coercible `longitude` degrade to absent, and the numeric `latitude`
survives. -/
theorem claim_C9_witness :
    ([(⟨1, "1.000s", none, some 7, none⟩ : TelemetryEntry)].get ⟨0, by simp⟩).speed
          = _coerce_optional_float ((c9Batch.get ⟨0, by simp [c9Batch]⟩).speed)
      ∧ ([(⟨1, "1.000s", none, some 7, none⟩ : TelemetryEntry)].get ⟨0, by simp⟩).latitude
          = _coerce_optional_float ((c9Batch.get ⟨0, by simp [c9Batch]⟩).latitude)
      ∧ ([(⟨1, "1.000s", none, some 7, none⟩ : TelemetryEntry)].get ⟨0, by simp⟩).longitude
          = _coerce_optional_float ((c9Batch.get ⟨0, by simp [c9Batch]⟩).longitude) :=
  (claim_C9_optional_coercion.2.2.2.2.2 c9Batch
      [⟨1, "1.000s", none, some 7, none⟩]
      (by with_unfolding_all rfl)).2 0 (by simp) (by simp [c9Batch])
